import Mathlib

/-!
Verification of the plotly.js polar-geometry core:

* `src/lib/angles.js` — angle normalization (`wrap360`, `wrap180`),
  full-circle detection, sector containment tests, and the SVG path
  builders `pathArc` / `pathSector` / `pathAnnulus` (shared `_path`);
* `src/traces/barpolar/plot.js` — the per-datum bar layout that derives
  each bar's radial/angular extents, validates them, and emits a path.

Modelling conventions:

* JavaScript numbers are modelled as exact rationals (`ℚ`); the
  non-finite values (NaN, ±Infinity, `undefined`) that drive the bar
  layout's degeneracy check are modelled by `none` in `JNum := Option ℚ`
  and propagate through arithmetic exactly as NaN does.
* An angle in radians is represented by the structure `Rad` storing its
  exact degree measure (the radian value being `deg·π/180`); degree/radian
  conversion is exact and linear, so every comparison, sum, midpoint and
  the constant `π` (= `Rad.mk 180`) of the source translate verbatim.
* `Math.cos` / `Math.sin` are real-valued and transcendental, hence not
  exactly computable; they are abstract parameters (a `Trig` record)
  consuming a `Rad`.  Every path-structure property proved below holds
  for all choices of these functions.
* Numbers are rendered into path strings by an exact decimal/fraction
  renderer whose alphabet (digits, `-`, `/`) is provably disjoint from
  the SVG command letters, so counting `M`/`Z` commands is meaningful.
-/

namespace Plotly

/-- An angle in radians, represented exactly by its degree measure
    (the radian value is `deg * π / 180`). -/
structure Rad where
  deg : ℚ
deriving DecidableEq

/-- Abstract stand-in for `Math.cos` / `Math.sin` on exactly-represented
    angles. -/
structure Trig where
  cos : Rad → ℚ
  sin : Rad → ℚ

/-- `deg2rad(deg)` of src/lib/angles.js: `deg / 180 * PI`
    (exact on this representation). -/
def deg2rad (d : ℚ) : Rad := ⟨d⟩

/-- `rad2deg(rad)`: `rad / PI * 180` (exact on this representation). -/
def rad2deg (a : Rad) : ℚ := a.deg

/-- JavaScript truncation toward zero, the integer quotient underlying
    the `%` operator on finite operands. -/
def jsTrunc (q : ℚ) : ℤ := if 0 ≤ q then ⌊q⌋ else -⌊-q⌋

/-- JavaScript remainder `a % n` on finite operands:
    `a - n * trunc (a / n)` (the result takes the dividend's sign). -/
def jsMod (a n : ℚ) : ℚ := a - n * (jsTrunc (a / n) : ℚ)

/-- JavaScript `Math.round`: `⌊q + 1/2⌋`, so half-integers round toward
    `+∞` (e.g. `Math.round(-1.5) = -1`), not away from zero. -/
def jsRound (q : ℚ) : ℤ := ⌊q + 1/2⌋

/-- `wrap360(deg)` of src/lib/angles.js:
    `out = deg % 360; return out < 0 ? out + 360 : out`. -/
def wrap360 (deg : ℚ) : ℚ :=
  if jsMod deg 360 < 0 then jsMod deg 360 + 360 else jsMod deg 360

/-- `wrap180(deg)` of src/lib/angles.js:
    `if (Math.abs(deg) > 180) deg -= Math.round(deg / 360) * 360; return deg`. -/
def wrap180 (deg : ℚ) : ℚ :=
  if 180 < |deg| then deg - (jsRound (deg / 360) : ℚ) * 360 else deg

/-- `isFullCircle(sector)`: `Math.abs(sector[1] - sector[0]) === 360`
    (exact equality, no epsilon). -/
def isFullCircle (sector : ℚ × ℚ) : Bool :=
  |sector.2 - sector.1| = 360

/-- `isAngleInsideSector(a, sector)` of src/lib/angles.js:
    `a` in radians, `sector` in degrees.  Full circles accept everything;
    otherwise the bounds are sorted ascending, wrapped into `[0,360)`,
    the upper bound bumped by 360 when the wrap inverted the order, and
    the wrapped angle plus its `+360` alias tested inclusively. -/
def isAngleInsideSector (a : Rad) (sector : ℚ × ℚ) : Bool :=
  if isFullCircle sector then true
  else
    let s0 := if sector.1 < sector.2 then sector.1 else sector.2
    let s1 := if sector.1 < sector.2 then sector.2 else sector.1
    let s0 := wrap360 s0
    let s1 := wrap360 s1
    let s1 := if s0 > s1 then s1 + 360 else s1
    let a0 := wrap360 (rad2deg a)
    let a1 := a0 + 360
    (a0 ≥ s0 && a0 ≤ s1) || (a1 ≥ s0 && a1 ≤ s1)

/-- `isPtInsideSector(r, a, rRng, sector)` of src/lib/angles.js:
    the angular test above, then the radius against the sorted radial
    range, inclusive on both ends. -/
def isPtInsideSector (r : ℚ) (a : Rad) (rRng : ℚ × ℚ) (sector : ℚ × ℚ) : Bool :=
  if !isAngleInsideSector a sector then false
  else
    let r0 := if rRng.1 < rRng.2 then rRng.1 else rRng.2
    let r1 := if rRng.1 < rRng.2 then rRng.2 else rRng.1
    r ≥ r0 && r ≤ r1

/-- Modelled from the spec: the algorithm the spec states for
    `isAngleInsideSector` on non-full-circle sectors — "sort the sector
    bounds ascending, wrap both into `[0,360)`, add 360 to the upper
    bound when the wrapped upper bound is less than the wrapped lower
    bound, then test the wrapped angle and its +360 alias for inclusive
    membership in `[lower, upper]`".  Kept separate so the source
    function can be compared against the spec's words. -/
def angleInsideSectorSpec (a : Rad) (sector : ℚ × ℚ) : Bool :=
  let lo := min sector.1 sector.2
  let hi := max sector.1 sector.2
  let lo := wrap360 lo
  let hi := wrap360 hi
  let hi := if hi < lo then hi + 360 else hi
  let a0 := wrap360 (rad2deg a)
  let a1 := a0 + 360
  (lo ≤ a0 && a0 ≤ hi) || (lo ≤ a1 && a1 ≤ hi)

/-! ### Exact number rendering for path strings

JS stringifies the numbers it splices into path strings.  Values here are
exact rationals, rendered as optionally-signed decimal integers or
`num/den` fractions; only the alphabet matters for the structural claims
(it contains no SVG command letter). -/

/-- Decimal digit characters of a natural number, most significant
    first. -/
def natChars (n : ℕ) : List Char :=
  if h : n < 10 then [Char.ofNat (48 + n)]
  else natChars (n / 10) ++ [Char.ofNat (48 + n % 10)]
decreasing_by exact Nat.div_lt_self (by omega) (by omega)

/-- Render a natural number. -/
def natStr (n : ℕ) : String := ⟨natChars n⟩

/-- Render an integer. -/
def intStr (i : ℤ) : String :=
  if i < 0 then "-" ++ natStr i.natAbs else natStr i.natAbs

/-- Render a rational exactly. -/
def ratStr (q : ℚ) : String :=
  if q.den = 1 then intStr q.num else intStr q.num ++ "/" ++ natStr q.den

/-- Occurrences of a character in a string. -/
def countChar (c : Char) (s : String) : ℕ := s.data.count c

/-! ### The shared `_path` routine and its public entry points -/

/-- JS coercion of a possibly-`null` number in arithmetic and `<`
    (`null` coerces to `0`). -/
def jsVal (o : Option ℚ) : ℚ := o.getD 0

/-- The local `pt(r, a)` of `_path`, already rendered as the SVG
    coordinate pair (JS stringifies the array `[x, y]` as `"x,y"`);
    SVG y grows downward, hence `cy - r·sin a`. -/
def pt (tr : Trig) (cx cy r : ℚ) (a : Rad) : String :=
  ratStr (r * tr.cos a + cx) ++ "," ++ ratStr (cy - r * tr.sin a)

/-- The local `arc(r, a, cw)` of `_path`:
    `'A' + [r, r] + ' ' + [0, largeArc, cw] + ' ' + pt(r, a)`. -/
def arc (tr : Trig) (cx cy : ℚ) (largeArc : ℕ) (r : ℚ) (a : Rad) (cw : ℕ) : String :=
  "A" ++ ratStr r ++ "," ++ ratStr r ++ " 0," ++ natStr largeArc ++ "," ++
    natStr cw ++ " " ++ pt tr cx cy r a

/-- `_path(r0, r1, a0, a1, cx, cy, isClosed)` of src/lib/angles.js,
    common to `pathArc`, `pathSector` and `pathAnnulus`.  `r0 = none`
    models the `null` inner radius; note that JS sorts the radii with
    `r0 < r1`, which coerces a `null` `r0` to `0`, and a sector closes
    with `'L0,0Z'` to the origin (not to `(cx, cy)`). -/
def _path (tr : Trig) (r0 : Option ℚ) (r1 : ℚ) (a0 a1 : Rad) (cx cy : ℚ)
    (isClosed : Bool) : String :=
  let isCircle := isFullCircle (rad2deg a0, rad2deg a1)
  let aStart : Rad := if isCircle then ⟨0⟩ else if a0.deg < a1.deg then a0 else a1
  let aMid : Rad := ⟨180⟩
  let aEnd : Rad := if isCircle then ⟨360⟩ else if a0.deg < a1.deg then a1 else a0
  let rStart : Option ℚ := if jsVal r0 < r1 then r0 else some r1
  let rEnd : Option ℚ := if jsVal r0 < r1 then some r1 else r0
  let largeArc : ℕ := if |aEnd.deg - aStart.deg| ≤ 180 then 0 else 1
  if isCircle then
    match rStart with
    | none =>
        "M" ++ pt tr cx cy (jsVal rEnd) aStart ++
        arc tr cx cy largeArc (jsVal rEnd) aMid 0 ++
        arc tr cx cy largeArc (jsVal rEnd) aEnd 0 ++ "Z"
    | some rs =>
        "M" ++ pt tr cx cy rs aStart ++
        arc tr cx cy largeArc rs aMid 0 ++
        arc tr cx cy largeArc rs aEnd 0 ++ "Z" ++
        "M" ++ pt tr cx cy (jsVal rEnd) aStart ++
        arc tr cx cy largeArc (jsVal rEnd) aMid 1 ++
        arc tr cx cy largeArc (jsVal rEnd) aEnd 1 ++ "Z"
  else
    match rStart with
    | none =>
        let base := "M" ++ pt tr cx cy (jsVal rEnd) aStart ++
          arc tr cx cy largeArc (jsVal rEnd) aEnd 0
        if isClosed then base ++ "L0,0Z" else base
    | some rs =>
        "M" ++ pt tr cx cy rs aStart ++
        "L" ++ pt tr cx cy (jsVal rEnd) aStart ++
        arc tr cx cy largeArc (jsVal rEnd) aEnd 0 ++
        "L" ++ pt tr cx cy rs aEnd ++
        arc tr cx cy largeArc rs aStart 1 ++ "Z"

/-- `pathArc(r, a0, a1, cx, cy)`: `_path(null, r, a0, a1, cx, cy, 0)`. -/
def pathArc (tr : Trig) (r : ℚ) (a0 a1 : Rad) (cx cy : ℚ) : String :=
  _path tr none r a0 a1 cx cy false

/-- `pathSector(r, a0, a1, cx, cy)`: `_path(null, r, a0, a1, cx, cy, 1)`. -/
def pathSector (tr : Trig) (r : ℚ) (a0 a1 : Rad) (cx cy : ℚ) : String :=
  _path tr none r a0 a1 cx cy true

/-- `pathAnnulus(r0, r1, a0, a1, cx, cy)`: `_path(r0, r1, a0, a1, cx, cy, 1)`. -/
def pathAnnulus (tr : Trig) (r0 r1 : ℚ) (a0 a1 : Rad) (cx cy : ℚ) : String :=
  _path tr (some r0) r1 a0 a1 cx cy true

/-! ### Per-datum bar layout (src/traces/barpolar/plot.js) -/

/-- A JavaScript number as the bar layout sees it: `some q` for a finite
    value, `none` for NaN / ±Infinity / `undefined`, which all fail
    `isNumeric` and propagate through arithmetic like NaN. -/
abbrev JNum := Option ℚ

/-- Non-finite-propagating addition (`NaN + x = NaN`). -/
def jadd : JNum → JNum → JNum
  | some a, some b => some (a + b)
  | _, _ => none

/-- Non-finite-propagating multiplication as the centroid computation
    uses it (`NaN * x = NaN`). -/
def jmul : JNum → JNum → JNum
  | some a, some b => some (a * b)
  | _, _ => none

/-- An axis object: `c2p` (data → pixel) and `c2g` (data → normalized
    angle/radius) are abstract scale functions which may signal an
    out-of-domain input (e.g. non-positive input on a log axis) by a
    non-finite result, modelled as `none`. -/
structure Axis where
  c2p : ℚ → Option ℚ
  c2g : ℚ → Option ℚ

/-- Apply an axis scale; a non-finite input projects to a non-finite
    output, as every JS numeric function of NaN. -/
def japply (f : ℚ → Option ℚ) : JNum → JNum := fun x => x.bind f

/-- The pieces of the subplot object the bar layout reads.  The
    `subplot.vangles` polygonal-grid variant calls helpers outside this
    repository slice (`plots/polar/helpers`) and outside every claim; the
    embedding models the circular branch. -/
structure Subplot where
  cxx : ℚ
  cyy : ℚ
  radialAxis : Axis
  angularAxis : Axis
  xaxis : Axis
  yaxis : Axis

/-- One calcdata bar record: raw fields `p`, `w`, `b`, `s` plus the
    derived fields the layout writes back onto it (`undefined` before the
    first pass, hence the `none` defaults) and the centroid `ct`
    (`none` = never attached). -/
structure BarRecord where
  p : JNum
  w : JNum
  b : JNum
  s : JNum
  p0 : JNum := none
  p1 : JNum := none
  s0 : JNum := none
  s1 : JNum := none
  rp0 : JNum := none
  rp1 : JNum := none
  thetag0 : JNum := none
  thetag1 : JNum := none
  ct : Option (JNum × JNum) := none
deriving DecidableEq

/-- `t.poffset`: a shared scalar or a per-index array. -/
def POffset := JNum ⊕ List JNum

/-- `poffsetIsArray ? poffset[i] : poffset`; an out-of-range index reads
    `undefined`, which is non-finite. -/
def poffsetAt : POffset → ℕ → JNum
  | Sum.inl v, _ => v
  | Sum.inr l, i => (l.get? i).getD none

/-- `p0 = di.p + (poffsetIsArray ? poffset[i] : poffset)`. -/
def barP0 (poffset : POffset) (i : ℕ) (di : BarRecord) : JNum :=
  jadd di.p (poffsetAt poffset i)

/-- `p1 = p0 + di.w`. -/
def barP1 (poffset : POffset) (i : ℕ) (di : BarRecord) : JNum :=
  jadd (barP0 poffset i di) di.w

/-- `s0 = di.b`. -/
def barS0 (di : BarRecord) : JNum := di.b

/-- `s1 = s0 + di.s`. -/
def barS1 (di : BarRecord) : JNum := jadd (barS0 di) di.s

/-- `rp0 = radialAxis.c2p(s0)`. -/
def barRp0 (sp : Subplot) (di : BarRecord) : JNum :=
  japply sp.radialAxis.c2p (barS0 di)

/-- `rp1 = radialAxis.c2p(s1)`. -/
def barRp1 (sp : Subplot) (di : BarRecord) : JNum :=
  japply sp.radialAxis.c2p (barS1 di)

/-- `thetag0 = angularAxis.c2g(p0)`. -/
def barThetag0 (sp : Subplot) (poffset : POffset) (i : ℕ) (di : BarRecord) : JNum :=
  japply sp.angularAxis.c2g (barP0 poffset i di)

/-- `thetag1 = angularAxis.c2g(p1)`. -/
def barThetag1 (sp : Subplot) (poffset : POffset) (i : ℕ) (di : BarRecord) : JNum :=
  japply sp.angularAxis.c2g (barP1 poffset i di)

/-- `fast-isnumeric`: true exactly on finite numbers. -/
def isNumericJ (x : JNum) : Bool := x.isSome

/-- The validity check of the bar loop, in source order:
    `!isNumeric(rp0) || !isNumeric(rp1) || !isNumeric(thetag0) ||
     !isNumeric(thetag1) || rp0 === rp1 || thetag0 === thetag1`.
    (JS `NaN === NaN` is false where `none == none` is true, but those
    operands are already caught by the preceding `isNumeric` tests, so
    the disjunction's value agrees.) -/
def barDegenerate (sp : Subplot) (poffset : POffset) (i : ℕ) (di : BarRecord) : Bool :=
  !isNumericJ (barRp0 sp di) || !isNumericJ (barRp1 sp di) ||
  !isNumericJ (barThetag0 sp poffset i di) || !isNumericJ (barThetag1 sp poffset i di) ||
  barRp0 sp di == barRp1 sp di ||
  barThetag0 sp poffset i di == barThetag1 sp poffset i di

/-- The centroid of the non-degenerate branch:
    `rg1 = radialAxis.c2g(s1)`, `thetagMid = (thetag0 + thetag1) / 2`,
    `ct = [xa.c2p(rg1·cos thetagMid), ya.c2p(rg1·sin thetagMid)]`. -/
def barCt (tr : Trig) (sp : Subplot) (poffset : POffset) (i : ℕ) (di : BarRecord) :
    JNum × JNum :=
  let rg1 := japply sp.radialAxis.c2g (barS1 di)
  let thetagMid :=
    (jadd (barThetag0 sp poffset i di) (barThetag1 sp poffset i di)).map (· / 2)
  (japply sp.xaxis.c2p (jmul rg1 (thetagMid.map fun q => tr.cos ⟨q⟩)),
   japply sp.yaxis.c2p (jmul rg1 (thetagMid.map fun q => tr.sin ⟨q⟩)))

/-- The body of `bars.each` in src/traces/barpolar/plot.js: write the
    derived fields onto the record, then either emit the blank-bar
    sentinel `"M0,0Z"` (keeping any previous `ct`) or attach the
    centroid and invoke the path function. -/
def layoutBar (tr : Trig) (sp : Subplot) (pathFn : ℚ → ℚ → Rad → Rad → String)
    (poffset : POffset) (i : ℕ) (di : BarRecord) : BarRecord × String :=
  let di' := { di with
    p0 := barP0 poffset i di, p1 := barP1 poffset i di,
    s0 := barS0 di, s1 := barS1 di,
    rp0 := barRp0 sp di, rp1 := barRp1 sp di,
    thetag0 := barThetag0 sp poffset i di, thetag1 := barThetag1 sp poffset i di }
  if barDegenerate sp poffset i di then
    (di', "M0,0Z")
  else
    ({ di' with ct := some (barCt tr sp poffset i di) },
     pathFn (jsVal (barRp0 sp di)) (jsVal (barRp1 sp di))
       ⟨jsVal (barThetag0 sp poffset i di)⟩ ⟨jsVal (barThetag1 sp poffset i di)⟩)

/-- `makePathFn(subplot)`, circular branch (`subplot.vangles` absent):
    a closure over the subplot center delegating to `pathAnnulus`. -/
def makePathFn (tr : Trig) (sp : Subplot) : ℚ → ℚ → Rad → Rad → String :=
  fun r0 r1 a0 a1 => pathAnnulus tr r0 r1 a0 a1 sp.cxx sp.cyy

/-- The per-datum loop of `plot`: lay out every bar of a trace in data
    order (each iteration independent, none skipped). -/
def plot (tr : Trig) (sp : Subplot) (pathFn : ℚ → ℚ → Rad → Rad → String)
    (poffset : POffset) (bars : List BarRecord) : List (BarRecord × String) :=
  bars.mapIdx fun i di => layoutBar tr sp pathFn poffset i di

/-- Sample subplot for concrete instances: identity projections
    (`x ↦ x` radial, identity angular), center at the origin. -/
def sampleSubplot : Subplot :=
  { cxx := 0, cyy := 0,
    radialAxis := { c2p := some, c2g := some },
    angularAxis := { c2p := some, c2g := some },
    xaxis := { c2p := some, c2g := some },
    yaxis := { c2p := some, c2g := some } }

/-- The spec's sample bar: `p = 0`, `w = 90`, `b = 1`, `s = 2`. -/
def sampleBar : BarRecord :=
  { p := some 0, w := some 90, b := some 1, s := some 2 }

/-- A concrete trigonometric oracle for witness instances (the
    structural claims hold for every oracle, so any choice will do). -/
def trivTrig : Trig := { cos := fun _ => 0, sin := fun _ => 0 }

/-- A concrete degenerate bar: radial base `b = NaN`, with a leftover
    centroid from an earlier layout pass. -/
def degBar : BarRecord :=
  { p := some 0, w := some 0, b := none, s := some 0, ct := some (some 7, some 8) }

/-! ## Helper lemmas -/

/-- `wrap360` computes the mathematical (floor-convention) remainder:
    JS `%` truncates toward zero, and the `+ 360` fix-up for negative
    remainders turns it into the floor remainder. -/
theorem wrap360_eq_floor (d : ℚ) : wrap360 d = d - 360 * (⌊d / 360⌋ : ℚ) := by
  have e : (360 : ℚ) * (d / 360) = d := by
    rw [mul_comm]
    exact div_mul_cancel₀ d (by norm_num)
  unfold wrap360 jsMod jsTrunc
  rcases le_or_lt 0 (d / 360) with h | h
  · rw [if_pos h]
    have h1 : (⌊d / 360⌋ : ℚ) ≤ d / 360 := Int.floor_le _
    have h2 : (0 : ℚ) ≤ d - 360 * (⌊d / 360⌋ : ℚ) := by nlinarith
    rw [if_neg (by linarith)]
  · rw [if_neg (not_le.mpr h), Int.floor_neg]
    have hfc := Int.floor_le_ceil (d / 360)
    have hcf := Int.ceil_le_floor_add_one (d / 360)
    have h1 : (⌊d / 360⌋ : ℚ) ≤ d / 360 := Int.floor_le _
    have h2 : d / 360 < (⌊d / 360⌋ : ℚ) + 1 := Int.lt_floor_add_one _
    have h3 : d / 360 ≤ (⌈d / 360⌉ : ℚ) := Int.le_ceil _
    rcases (by omega : ⌈d / 360⌉ = ⌊d / 360⌋ ∨ ⌈d / 360⌉ = ⌊d / 360⌋ + 1) with hc | hc
    · -- d/360 is an integer: remainder is 0, no fix-up
      have hx : d / 360 = (⌊d / 360⌋ : ℚ) := by
        rw [hc] at h3
        linarith
      rw [if_neg]
      · rw [hc]
        push_cast
        ring
      · rw [hc]
        push_cast
        nlinarith [hx]
    · -- strictly fractional: remainder negative, 360 added
      rw [if_pos]
      · rw [hc]
        push_cast
        ring
      · rw [hc]
        push_cast
        nlinarith

/-- Every character the decimal renderer emits is a digit. -/
theorem mem_natChars_isDigit (n : ℕ) : ∀ c ∈ natChars n, c.isDigit = true := by
  induction n using Nat.strong_induction_on with
  | _ n ih =>
    rw [natChars]
    split
    · rename_i h
      intro c hc
      simp only [List.mem_singleton] at hc
      subst hc
      interval_cases n <;> decide
    · rename_i h
      intro c hc
      rcases List.mem_append.mp hc with h1 | h1
      · exact ih (n / 10) (Nat.div_lt_self (by omega) (by omega)) c h1
      · simp only [List.mem_singleton] at h1
        subst h1
        have hm : n % 10 < 10 := Nat.mod_lt _ (by omega)
        rcases (by omega : n % 10 = 0 ∨ n % 10 = 1 ∨ n % 10 = 2 ∨ n % 10 = 3 ∨
          n % 10 = 4 ∨ n % 10 = 5 ∨ n % 10 = 6 ∨ n % 10 = 7 ∨ n % 10 = 8 ∨
          n % 10 = 9) with h2 | h2 | h2 | h2 | h2 | h2 | h2 | h2 | h2 | h2 <;>
          rw [h2] <;> decide

/-- Character counting distributes over string concatenation. -/
theorem countChar_append (c : Char) (s t : String) :
    countChar c (s ++ t) = countChar c s + countChar c t := by
  simp [countChar, List.count_append]

/-- A non-digit character never occurs in a rendered natural number. -/
theorem countChar_natStr (c : Char) (hc : c.isDigit = false) (n : ℕ) :
    countChar c (natStr n) = 0 := by
  refine List.count_eq_zero.mpr fun h => ?_
  have := mem_natChars_isDigit n c h
  rw [hc] at this
  exact Bool.false_ne_true this

/-- A character that is neither a digit nor `-` never occurs in a
    rendered integer. -/
theorem countChar_intStr (c : Char) (hc : c.isDigit = false) (h2 : c ≠ '-') (i : ℤ) :
    countChar c (intStr i) = 0 := by
  unfold intStr
  split
  · rw [countChar_append, countChar_natStr c hc]
    have hm : countChar c "-" = 0 := by
      refine List.count_eq_zero.mpr ?_
      intro hmem
      exact h2 (List.mem_singleton.mp hmem)
    rw [hm]
  · exact countChar_natStr c hc _

/-- A character that is neither a digit nor `-` nor `/` never occurs in
    a rendered rational. -/
theorem countChar_ratStr (c : Char) (hc : c.isDigit = false) (h2 : c ≠ '-')
    (h3 : c ≠ '/') (q : ℚ) : countChar c (ratStr q) = 0 := by
  unfold ratStr
  split
  · exact countChar_intStr c hc h2 _
  · rw [countChar_append, countChar_append, countChar_intStr c hc h2,
      countChar_natStr c hc]
    have hm : countChar c "/" = 0 := by
      refine List.count_eq_zero.mpr ?_
      intro hmem
      exact h3 (List.mem_singleton.mp hmem)
    rw [hm]

/-- A coordinate pair contains only digits, `-`, `/` and `,`. -/
theorem countChar_pt (c : Char) (hc : c.isDigit = false) (h2 : c ≠ '-')
    (h3 : c ≠ '/') (h4 : c ≠ ',') (tr : Trig) (cx cy r : ℚ) (a : Rad) :
    countChar c (pt tr cx cy r a) = 0 := by
  unfold pt
  rw [countChar_append, countChar_append, countChar_ratStr c hc h2 h3,
    countChar_ratStr c hc h2 h3]
  have hm : countChar c "," = 0 := by
    refine List.count_eq_zero.mpr ?_
    intro hmem
    exact h4 (List.mem_singleton.mp hmem)
  rw [hm]

/-- An `A` arc command contains only digits, `-`, `/`, `,`, `A` and
    spaces — in particular neither `M` nor `Z`. -/
theorem countChar_arc (c : Char) (hc : c.isDigit = false) (h2 : c ≠ '-')
    (h3 : c ≠ '/') (h4 : c ≠ ',') (h5 : c ≠ 'A') (h6 : c ≠ ' ')
    (tr : Trig) (cx cy : ℚ) (largeArc : ℕ) (r : ℚ) (a : Rad) (cw : ℕ) :
    countChar c (arc tr cx cy largeArc r a cw) = 0 := by
  unfold arc
  have hA : countChar c "A" = 0 :=
    List.count_eq_zero.mpr fun hmem => h5 (List.mem_singleton.mp hmem)
  have hsp : countChar c " " = 0 :=
    List.count_eq_zero.mpr fun hmem => h6 (List.mem_singleton.mp hmem)
  have hcm : countChar c "," = 0 :=
    List.count_eq_zero.mpr fun hmem => h4 (List.mem_singleton.mp hmem)
  have hz : countChar c " 0," = 0 := by
    refine List.count_eq_zero.mpr ?_
    intro hmem
    simp only [show (" 0,").data = [' ', '0', ','] from rfl, List.mem_cons,
      List.not_mem_nil, or_false] at hmem
    rcases hmem with h | h | h
    · exact h6 h
    · subst h
      simp at hc
    · exact h4 h
  simp only [countChar_append, countChar_natStr c hc, countChar_ratStr c hc h2 h3,
    countChar_pt c hc h2 h3 h4, hA, hsp, hcm, hz]

/-- Ignoring the full-circle shortcut, the source's containment test
    agrees with the spec's algorithm description word for word. -/
theorem isAngleInsideSector_eq_spec (a : Rad) (sector : ℚ × ℚ)
    (h : isFullCircle sector = false) :
    isAngleInsideSector a sector = angleInsideSectorSpec a sector := by
  unfold isAngleInsideSector angleInsideSectorSpec
  rw [h]
  rcases lt_trichotomy sector.1 sector.2 with hlt | heq | hgt
  · simp only [if_pos hlt, min_eq_left hlt.le, max_eq_right hlt.le, Bool.false_eq_true,
      if_false]
  · simp only [heq, lt_self_iff_false, if_false, min_self, max_self, Bool.false_eq_true]
  · simp only [if_neg (not_lt.mpr hgt.le), min_eq_right hgt.le, max_eq_left hgt.le,
      Bool.false_eq_true, if_false]

/-- Sorting the sector pair first makes the angular test insensitive to
    the pair's order. -/
theorem isAngleInsideSector_swap (a : Rad) (u v : ℚ) :
    isAngleInsideSector a (u, v) = isAngleInsideSector a (v, u) := by
  unfold isAngleInsideSector
  rw [show isFullCircle (v, u) = isFullCircle (u, v) by simp [isFullCircle, abs_sub_comm]]
  rcases lt_trichotomy u v with hlt | heq | hgt
  · simp only [if_pos hlt, if_neg (not_lt.mpr hlt.le)]
  · simp [heq]
  · simp only [if_neg (not_lt.mpr hgt.le), if_pos hgt]

/-! ## Claims -/

/-- C7: `wrap360(d)` lies in `[0, 360)`, is 360-periodic
    (`wrap360(d) = wrap360(d + 360k)` for every integer `k`), and equals
    `d mod 360` with 360 added when the modulo result is negative. -/
theorem wrap360_range_periodic (d : ℚ) (k : ℤ) :
    0 ≤ wrap360 d ∧ wrap360 d < 360 ∧ wrap360 (d + 360 * k) = wrap360 d ∧
      wrap360 d = (if jsMod d 360 < 0 then jsMod d 360 + 360 else jsMod d 360) := by
  have e : (360 : ℚ) * (d / 360) = d := by
    rw [mul_comm]
    exact div_mul_cancel₀ d (by norm_num)
  have h1 : (⌊d / 360⌋ : ℚ) ≤ d / 360 := Int.floor_le _
  have h2 : d / 360 < (⌊d / 360⌋ : ℚ) + 1 := Int.lt_floor_add_one _
  refine ⟨?_, ?_, ?_, rfl⟩
  · rw [wrap360_eq_floor]
    nlinarith
  · rw [wrap360_eq_floor]
    nlinarith
  · rw [wrap360_eq_floor, wrap360_eq_floor]
    have hq : (d + 360 * (k : ℚ)) / 360 = d / 360 + (k : ℚ) := by
      field_simp
      ring
    rw [hq]
    rw [show d / 360 + (k : ℚ) = d / 360 + (k : ℤ) by norm_cast, Int.floor_add_int]
    push_cast
    ring

/-- Counterexample to C2 as stated: `wrap180(-540) = -180`, which is
    outside the claimed half-open interval `(-180, 180]`, and differs
    from `d - 360·round(d/360)` with round-half-away-from-zero
    (that rounding gives `round(-1.5) = -2`, hence `-540 + 720 = 180`);
    JS `Math.round` rounds half-integers toward `+∞` instead. -/
theorem wrap180_claim_counterexample :
    wrap180 (-540) = -180 ∧ ¬(-180 < wrap180 (-540)) ∧
      wrap180 (-540) ≠ -540 - (-2) * 360 := by
  have h : wrap180 (-540) = -180 := by norm_num [wrap180, jsRound]
  refine ⟨h, ?_, ?_⟩ <;> rw [h] <;> norm_num

/-- C2 (amended): `wrap180(d)` lies in the closed interval `[-180, 180]`
    (both boundary values are attained: `wrap180(180) = 180` is preserved
    by the unchanged branch, while e.g. `d = -180` or `d = 540` yield
    `-180`); for `|d| > 180` the result is `d - 360·round(d/360)` with
    JS rounding (half toward `+∞`, `⌊x + 1/2⌋`), and for `|d| ≤ 180` the
    input is returned unchanged. -/
theorem wrap180_range_formula (d : ℚ) :
    -180 ≤ wrap180 d ∧ wrap180 d ≤ 180 ∧ wrap180 180 = 180 ∧
      wrap180 d = (if 180 < |d| then d - (jsRound (d / 360) : ℚ) * 360 else d) := by
  have h180 : wrap180 180 = 180 := by norm_num [wrap180]
  refine ⟨?_, ?_, h180, rfl⟩ <;>
  · unfold wrap180 jsRound
    split
    · have h1 : (⌊d / 360 + 1 / 2⌋ : ℚ) ≤ d / 360 + 1 / 2 := Int.floor_le _
      have h2 : d / 360 + 1 / 2 < (⌊d / 360 + 1 / 2⌋ : ℚ) + 1 := Int.lt_floor_add_one _
      have e : (360 : ℚ) * (d / 360) = d := by
        rw [mul_comm]
        exact div_mul_cancel₀ d (by norm_num)
      nlinarith
    · rename_i h
      rcases abs_le.mp (not_lt.mp h) with ⟨hl, hr⟩
      linarith

/-- Counterexample to C1 as stated: for the sector `[350, 10]` the code
    returns `false` at angle `0°` (the claim says `true`).  The code
    sorts the bounds *before* wrapping, so `[350, 10]` becomes the plain
    `10°..350°` sector, never a wrap-around one. -/
theorem sector_350_10_not_wraparound :
    isAngleInsideSector (deg2rad 0) (350, 10) = false := by
  norm_num [isAngleInsideSector, isFullCircle, wrap360, jsMod, jsTrunc, rad2deg, deg2rad]

/-- C1 (amended): for the sector `[350, 10]` in degrees, the angles `0°`
    and `355°` (supplied in radians) are *not* inside and `180°` *is*
    (sorting the bounds first turns `[350, 10]` into the `10°..350°`
    sector, not a wrap-around sector); in general, on non-full-circle
    sectors, `isAngleInsideSector` follows the algorithm: sort the sector
    bounds ascending, wrap both into `[0, 360)`, add 360 to the upper
    bound when the wrapped upper bound is less than the wrapped lower
    bound, then test the wrapped angle and its `+360` alias for inclusive
    membership in `[lower, upper]`. -/
theorem isAngleInsideSector_algorithm (a : Rad) (sector : ℚ × ℚ)
    (h : isFullCircle sector = false) :
    isAngleInsideSector a sector = angleInsideSectorSpec a sector ∧
      isAngleInsideSector (deg2rad 0) (350, 10) = false ∧
      isAngleInsideSector (deg2rad 355) (350, 10) = false ∧
      isAngleInsideSector (deg2rad 180) (350, 10) = true := by
  refine ⟨isAngleInsideSector_eq_spec a sector h, ?_, ?_, ?_⟩ <;>
    norm_num [isAngleInsideSector, isFullCircle, wrap360, jsMod, jsTrunc, rad2deg, deg2rad]

/-- Witness for `isAngleInsideSector_algorithm` at the concrete sector
    `[350, 10]` and angle `0` radians. -/
theorem isAngleInsideSector_algorithm_witness :
    isAngleInsideSector (deg2rad 0) (350, 10) =
        angleInsideSectorSpec (deg2rad 0) (350, 10) ∧
      isAngleInsideSector (deg2rad 0) (350, 10) = false ∧
      isAngleInsideSector (deg2rad 355) (350, 10) = false ∧
      isAngleInsideSector (deg2rad 180) (350, 10) = true :=
  isAngleInsideSector_algorithm (deg2rad 0) (350, 10)
    (by norm_num [isFullCircle])

/-- C5: `isFullCircle` is exact equality `|sector[1] - sector[0]| = 360`
    (no epsilon): `isFullCircle([0, 360])` is true and
    `isFullCircle([0, 359.999])` is false; whenever the sector is a full
    circle, `isAngleInsideSector` returns true immediately for every
    angle. -/
theorem isFullCircle_exact_shortcut (a : Rad) (sector : ℚ × ℚ)
    (h : isFullCircle sector = true) :
    isAngleInsideSector a sector = true ∧
      (∀ t : ℚ × ℚ, isFullCircle t = true ↔ |t.2 - t.1| = 360) ∧
      isFullCircle (0, 360) = true ∧
      isFullCircle (0, 359999 / 1000) = false := by
  refine ⟨?_, fun t => by simp [isFullCircle], by norm_num [isFullCircle], ?_⟩
  · unfold isAngleInsideSector
    rw [h]
    simp
  · simp only [isFullCircle, decide_eq_false_iff_not]
    rw [show (359999 / 1000 - 0 : ℚ) = 359999 / 1000 by ring,
      abs_of_nonneg (by norm_num)]
    norm_num

/-- Witness for `isFullCircle_exact_shortcut` at angle `0` radians and
    the sector `[0, 360]`. -/
theorem isFullCircle_exact_shortcut_witness :
    isAngleInsideSector (deg2rad 0) (0, 360) = true ∧
      (isFullCircle (0, 360) = true ↔ |(360 : ℚ) - 0| = 360) ∧
      isFullCircle (0, 360) = true ∧
      isFullCircle (0, 359999 / 1000) = false :=
  ⟨(isFullCircle_exact_shortcut (deg2rad 0) (0, 360) (by norm_num [isFullCircle])).1,
   (isFullCircle_exact_shortcut (deg2rad 0) (0, 360)
      (by norm_num [isFullCircle])).2.1 (0, 360),
   (isFullCircle_exact_shortcut (deg2rad 0) (0, 360)
      (by norm_num [isFullCircle])).2.2.1,
   (isFullCircle_exact_shortcut (deg2rad 0) (0, 360)
      (by norm_num [isFullCircle])).2.2.2⟩

/-- C8: the containment tests sort their pair arguments internally, so
    both `isPtInsideSector` (radial range) and `isAngleInsideSector`
    (sector) are insensitive to the order of the pair; in particular
    `isPtInsideSector(r=5, a=0, rRange=[10,2], sector=[-10,10])` is true
    (5 lies between 2 and 10 and angle 0 is inside the wrap-around
    sector `[-10, 10]`). -/
theorem containment_sorts_internally (r : ℚ) (a : Rad) (x y u v : ℚ) :
    isPtInsideSector r a (x, y) (u, v) = isPtInsideSector r a (y, x) (u, v) ∧
      isAngleInsideSector a (u, v) = isAngleInsideSector a (v, u) ∧
      isPtInsideSector 5 (deg2rad 0) (10, 2) (-10, 10) = true := by
  refine ⟨?_, isAngleInsideSector_swap a u v, ?_⟩
  · unfold isPtInsideSector
    rcases lt_trichotomy x y with hlt | heq | hgt
    · simp only [if_pos hlt, if_neg (not_lt.mpr hlt.le)]
    · simp [heq]
    · simp only [if_neg (not_lt.mpr hgt.le), if_pos hgt]
  · norm_num [isPtInsideSector, isAngleInsideSector, isFullCircle, wrap360,
      jsMod, jsTrunc, rad2deg, deg2rad]

/-- Swapping the two angles leaves `_path` unchanged: full-circle
    detection is symmetric and the angles are sorted before use. -/
theorem path_angle_swap (tr : Trig) (r0 : Option ℚ) (r1 : ℚ) (a0 a1 : Rad)
    (cx cy : ℚ) (isClosed : Bool) :
    _path tr r0 r1 a0 a1 cx cy isClosed = _path tr r0 r1 a1 a0 cx cy isClosed := by
  unfold _path
  rw [show isFullCircle (rad2deg a1, rad2deg a0) = isFullCircle (rad2deg a0, rad2deg a1) by
    simp [isFullCircle, rad2deg, abs_sub_comm]]
  rcases lt_trichotomy a0.deg a1.deg with hlt | heq | hgt
  · simp only [if_pos hlt, if_neg (not_lt.mpr hlt.le)]
  · have hEq : a0 = a1 := by
      cases a0
      cases a1
      simpa using heq
    simp [hEq]
  · simp only [if_neg (not_lt.mpr hgt.le), if_pos hgt]

/-- Swapping the two (non-null) radii leaves `_path` unchanged: the radii
    are sorted before use. -/
theorem path_radius_swap (tr : Trig) (r0 r1 : ℚ) (a0 a1 : Rad) (cx cy : ℚ)
    (isClosed : Bool) :
    _path tr (some r0) r1 a0 a1 cx cy isClosed =
      _path tr (some r1) r0 a0 a1 cx cy isClosed := by
  unfold _path
  rcases lt_trichotomy r0 r1 with hlt | heq | hgt
  · simp only [jsVal, Option.getD_some, if_pos hlt, if_neg (not_lt.mpr hlt.le)]
  · simp [heq, jsVal]
  · simp only [jsVal, Option.getD_some, if_neg (not_lt.mpr hgt.le), if_pos hgt]

/-- C9: the path builders are insensitive to argument pair order —
    `pathAnnulus` returns an identical string when its two radii are
    swapped or when its two angles are swapped, and `pathArc` /
    `pathSector` return identical strings when their two angles are
    swapped. -/
theorem path_builders_pair_order_insensitive (tr : Trig) (r r0 r1 : ℚ)
    (a0 a1 : Rad) (cx cy : ℚ) :
    pathAnnulus tr r0 r1 a0 a1 cx cy = pathAnnulus tr r1 r0 a0 a1 cx cy ∧
      pathAnnulus tr r0 r1 a0 a1 cx cy = pathAnnulus tr r0 r1 a1 a0 cx cy ∧
      pathArc tr r a0 a1 cx cy = pathArc tr r a1 a0 cx cy ∧
      pathSector tr r a0 a1 cx cy = pathSector tr r a1 a0 cx cy :=
  ⟨path_radius_swap tr r0 r1 a0 a1 cx cy true,
   path_angle_swap tr (some r0) r1 a0 a1 cx cy true,
   path_angle_swap tr none r a0 a1 cx cy false,
   path_angle_swap tr none r a0 a1 cx cy true⟩

/-- C4: when the angle pair spans a full circle
    (`|rad2deg a1 - rad2deg a0| = 360`), `pathAnnulus` produces exactly
    two independent closed subpaths — the string splits into two `M…Z`
    groups (and indeed contains exactly two `M` and two `Z` commands,
    the number renderer emitting neither letter) — with the inner
    boundary (`min r0 r1`) traversed with sweep flag 0 on its arc
    commands and the outer boundary (`max r0 r1`) with sweep flag 1. -/
theorem pathAnnulus_full_circle_two_loops (tr : Trig) (r0 r1 : ℚ) (a0 a1 : Rad)
    (cx cy : ℚ) (h : |rad2deg a1 - rad2deg a0| = 360) :
    pathAnnulus tr r0 r1 a0 a1 cx cy =
      ("M" ++ pt tr cx cy (min r0 r1) ⟨0⟩ ++ arc tr cx cy 1 (min r0 r1) ⟨180⟩ 0 ++
        arc tr cx cy 1 (min r0 r1) ⟨360⟩ 0 ++ "Z") ++
      ("M" ++ pt tr cx cy (max r0 r1) ⟨0⟩ ++ arc tr cx cy 1 (max r0 r1) ⟨180⟩ 1 ++
        arc tr cx cy 1 (max r0 r1) ⟨360⟩ 1 ++ "Z") ∧
      countChar 'M' (pathAnnulus tr r0 r1 a0 a1 cx cy) = 2 ∧
      countChar 'Z' (pathAnnulus tr r0 r1 a0 a1 cx cy) = 2 := by
  have hfc : isFullCircle (rad2deg a0, rad2deg a1) = true := by
    simp [isFullCircle, h]
  have habs : ¬(|(⟨360⟩ : Rad).deg - (⟨0⟩ : Rad).deg| ≤ 180) := by
    rw [show ((⟨360⟩ : Rad).deg - (⟨0⟩ : Rad).deg : ℚ) = 360 by norm_num,
      abs_of_nonneg (by norm_num : (0:ℚ) ≤ 360)]
    norm_num
  have hmain : pathAnnulus tr r0 r1 a0 a1 cx cy =
      ("M" ++ pt tr cx cy (min r0 r1) ⟨0⟩ ++ arc tr cx cy 1 (min r0 r1) ⟨180⟩ 0 ++
        arc tr cx cy 1 (min r0 r1) ⟨360⟩ 0 ++ "Z") ++
      ("M" ++ pt tr cx cy (max r0 r1) ⟨0⟩ ++ arc tr cx cy 1 (max r0 r1) ⟨180⟩ 1 ++
        arc tr cx cy 1 (max r0 r1) ⟨360⟩ 1 ++ "Z") := by
    unfold pathAnnulus _path
    rw [hfc]
    rcases lt_trichotomy r0 r1 with hlt | heq | hgt
    · simp only [if_true, if_neg habs, jsVal, Option.getD_some, if_pos hlt,
        min_eq_left hlt.le, max_eq_right hlt.le, String.append_assoc]
    · simp only [heq, if_true, if_neg habs, jsVal, Option.getD_some,
        lt_self_iff_false, if_false, min_self, max_self, String.append_assoc]
    · simp only [if_true, if_neg habs, jsVal, Option.getD_some,
        if_neg (not_lt.mpr hgt.le), min_eq_right hgt.le, max_eq_left hgt.le,
        String.append_assoc]
  have pM : ∀ (r : ℚ) (a : Rad), countChar 'M' (pt tr cx cy r a) = 0 := fun r a =>
    countChar_pt 'M' (by decide) (by decide) (by decide) (by decide) tr cx cy r a
  have pZ : ∀ (r : ℚ) (a : Rad), countChar 'Z' (pt tr cx cy r a) = 0 := fun r a =>
    countChar_pt 'Z' (by decide) (by decide) (by decide) (by decide) tr cx cy r a
  have aM : ∀ (la : ℕ) (r : ℚ) (a : Rad) (cw : ℕ),
      countChar 'M' (arc tr cx cy la r a cw) = 0 := fun la r a cw =>
    countChar_arc 'M' (by decide) (by decide) (by decide) (by decide) (by decide)
      (by decide) tr cx cy la r a cw
  have aZ : ∀ (la : ℕ) (r : ℚ) (a : Rad) (cw : ℕ),
      countChar 'Z' (arc tr cx cy la r a cw) = 0 := fun la r a cw =>
    countChar_arc 'Z' (by decide) (by decide) (by decide) (by decide) (by decide)
      (by decide) tr cx cy la r a cw
  refine ⟨hmain, ?_, ?_⟩ <;> rw [hmain] <;>
    simp only [countChar_append, pM, pZ, aM, aZ,
      show countChar 'M' "M" = 1 from rfl, show countChar 'Z' "M" = 0 from rfl,
      show countChar 'M' "Z" = 0 from rfl, show countChar 'Z' "Z" = 1 from rfl]

/-- Witness for `pathAnnulus_full_circle_two_loops` at radii 1, 2 and
    the full-circle angle pair `0 .. 2π`. -/
theorem pathAnnulus_full_circle_two_loops_witness :
    pathAnnulus trivTrig 1 2 (deg2rad 0) (deg2rad 360) 0 0 =
      ("M" ++ pt trivTrig 0 0 (min 1 2) ⟨0⟩ ++ arc trivTrig 0 0 1 (min 1 2) ⟨180⟩ 0 ++
        arc trivTrig 0 0 1 (min 1 2) ⟨360⟩ 0 ++ "Z") ++
      ("M" ++ pt trivTrig 0 0 (max 1 2) ⟨0⟩ ++ arc trivTrig 0 0 1 (max 1 2) ⟨180⟩ 1 ++
        arc trivTrig 0 0 1 (max 1 2) ⟨360⟩ 1 ++ "Z") ∧
      countChar 'M' (pathAnnulus trivTrig 1 2 (deg2rad 0) (deg2rad 360) 0 0) = 2 ∧
      countChar 'Z' (pathAnnulus trivTrig 1 2 (deg2rad 0) (deg2rad 360) 0 0) = 2 :=
  pathAnnulus_full_circle_two_loops trivTrig 1 2 (deg2rad 0) (deg2rad 360) 0 0
    (by rw [show rad2deg (deg2rad 360) - rad2deg (deg2rad 0) = (360:ℚ) by
          norm_num [rad2deg, deg2rad]]
        exact abs_of_nonneg (by norm_num))

/-- C3: a bar whose projected values fail the validity check (some of
    `rp0, rp1, thetag0, thetag1` non-finite, or `rp0 = rp1`, or
    `thetag0 = thetag1`) gets exactly the sentinel path `"M0,0Z"` and no
    centroid is computed for it (`ct` is left untouched); in particular a
    bar with `b = NaN` is always degenerate, and the per-datum loop
    processes every bar (no exception interrupts it — the layout is a
    total function and the output list keeps the input's length). -/
theorem degenerate_bar_sentinel (tr : Trig) (sp : Subplot)
    (pathFn : ℚ → ℚ → Rad → Rad → String) (poffset : POffset) (i : ℕ)
    (di : BarRecord) (h : barDegenerate sp poffset i di = true) :
    (layoutBar tr sp pathFn poffset i di).2 = "M0,0Z" ∧
      (layoutBar tr sp pathFn poffset i di).1.ct = di.ct ∧
      (∀ di' : BarRecord, di'.b = none → barDegenerate sp poffset i di' = true) ∧
      (∀ bars : List BarRecord,
        (plot tr sp pathFn poffset bars).length = bars.length) := by
  refine ⟨?_, ?_, ?_, ?_⟩
  · simp [layoutBar, h]
  · simp [layoutBar, h]
  · intro di' hb
    simp [barDegenerate, isNumericJ, barRp0, barS0, japply, hb]
  · intro bars
    simp [plot]

/-- Witness for `degenerate_bar_sentinel` at the `b = NaN` bar `degBar`,
    whose leftover centroid survives the pass. -/
theorem degenerate_bar_sentinel_witness :
    (layoutBar trivTrig sampleSubplot (makePathFn trivTrig sampleSubplot)
        (Sum.inl (some 0)) 0 degBar).2 = "M0,0Z" ∧
      (layoutBar trivTrig sampleSubplot (makePathFn trivTrig sampleSubplot)
        (Sum.inl (some 0)) 0 degBar).1.ct = some (some 7, some 8) :=
  ⟨(degenerate_bar_sentinel trivTrig sampleSubplot
      (makePathFn trivTrig sampleSubplot) (Sum.inl (some 0)) 0 degBar
      (by simp [barDegenerate, isNumericJ, barRp0, barS0, japply, degBar])).1,
   (degenerate_bar_sentinel trivTrig sampleSubplot
      (makePathFn trivTrig sampleSubplot) (Sum.inl (some 0)) 0 degBar
      (by simp [barDegenerate, isNumericJ, barRp0, barS0, japply, degBar])).2.1⟩

/-- C10: every layout pass writes the derived fields `p0, p1, s0, s1,
    rp0, rp1, thetag0, thetag1` onto the record unconditionally, while
    `ct` is written only on the non-degenerate branch — a degenerate bar
    keeps whatever `ct` it held before the pass. -/
theorem layout_field_writes (tr : Trig) (sp : Subplot)
    (pathFn : ℚ → ℚ → Rad → Rad → String) (poffset : POffset) (i : ℕ)
    (di : BarRecord) :
    (layoutBar tr sp pathFn poffset i di).1.p0 = barP0 poffset i di ∧
      (layoutBar tr sp pathFn poffset i di).1.p1 = barP1 poffset i di ∧
      (layoutBar tr sp pathFn poffset i di).1.s0 = barS0 di ∧
      (layoutBar tr sp pathFn poffset i di).1.s1 = barS1 di ∧
      (layoutBar tr sp pathFn poffset i di).1.rp0 = barRp0 sp di ∧
      (layoutBar tr sp pathFn poffset i di).1.rp1 = barRp1 sp di ∧
      (layoutBar tr sp pathFn poffset i di).1.thetag0 = barThetag0 sp poffset i di ∧
      (layoutBar tr sp pathFn poffset i di).1.thetag1 = barThetag1 sp poffset i di ∧
      (layoutBar tr sp pathFn poffset i di).1.ct =
        (if barDegenerate sp poffset i di then di.ct
         else some (barCt tr sp poffset i di)) := by
  unfold layoutBar
  split <;> rename_i h <;> simp [h]

/-- C6: on the spec's sample bar (`p = 0`, `w = 90`, `b = 1`, `s = 2`)
    with identity radial (`x ↦ x`) and angular projections, the layout
    derives `p0 = 0`, `p1 = 90`, `s0 = 1`, `s1 = 3` and emits the
    quarter-ring annulus from radius 1 to 3 spanning `0°..90°` (inner
    edge, straight jump to the outer edge, outer 90° arc, straight jump
    back, reverse inner arc, closed) — for every trigonometric oracle. -/
theorem barpolar_sample_quarter_ring (tr : Trig) :
    (layoutBar tr sampleSubplot (makePathFn tr sampleSubplot) (Sum.inl (some 0)) 0
        sampleBar).1.p0 = some 0 ∧
      (layoutBar tr sampleSubplot (makePathFn tr sampleSubplot) (Sum.inl (some 0)) 0
        sampleBar).1.p1 = some 90 ∧
      (layoutBar tr sampleSubplot (makePathFn tr sampleSubplot) (Sum.inl (some 0)) 0
        sampleBar).1.s0 = some 1 ∧
      (layoutBar tr sampleSubplot (makePathFn tr sampleSubplot) (Sum.inl (some 0)) 0
        sampleBar).1.s1 = some 3 ∧
      (layoutBar tr sampleSubplot (makePathFn tr sampleSubplot) (Sum.inl (some 0)) 0
        sampleBar).2 = pathAnnulus tr 1 3 (deg2rad 0) (deg2rad 90) 0 0 ∧
      pathAnnulus tr 1 3 (deg2rad 0) (deg2rad 90) 0 0 =
        "M" ++ pt tr 0 0 1 ⟨0⟩ ++ "L" ++ pt tr 0 0 3 ⟨0⟩ ++
        arc tr 0 0 0 3 ⟨90⟩ 0 ++ "L" ++ pt tr 0 0 1 ⟨90⟩ ++
        arc tr 0 0 0 1 ⟨0⟩ 1 ++ "Z" := by
  have hdeg : barDegenerate sampleSubplot (Sum.inl (some 0)) 0 sampleBar = false := by
    norm_num [barDegenerate, isNumericJ, barRp0, barRp1, barThetag0, barThetag1,
      barP0, barP1, barS0, barS1, japply, jadd, poffsetAt, sampleBar, sampleSubplot]
  have h1 : barRp0 sampleSubplot sampleBar = some 1 := by
    simp [barRp0, barS0, sampleBar, japply, sampleSubplot]
  have h2 : barRp1 sampleSubplot sampleBar = some 3 := by
    norm_num [barRp1, barS1, barS0, sampleBar, japply, jadd, sampleSubplot]
  have h3 : barThetag0 sampleSubplot (Sum.inl (some 0)) 0 sampleBar = some 0 := by
    simp [barThetag0, barP0, poffsetAt, sampleBar, japply, jadd, sampleSubplot]
  have h4 : barThetag1 sampleSubplot (Sum.inl (some 0)) 0 sampleBar = some 90 := by
    norm_num [barThetag1, barP1, barP0, poffsetAt, sampleBar, japply, jadd,
      sampleSubplot]
  have hp0 : barP0 (Sum.inl (some 0)) 0 sampleBar = some 0 := by
    simp [barP0, poffsetAt, sampleBar, jadd]
  have hp1 : barP1 (Sum.inl (some 0)) 0 sampleBar = some 90 := by
    simp [barP1, barP0, poffsetAt, sampleBar, jadd]
  have hs1 : barS1 sampleBar = some 3 := by
    norm_num [barS1, barS0, sampleBar, jadd]
  have hcx : sampleSubplot.cxx = 0 := rfl
  have hcy : sampleSubplot.cyy = 0 := rfl
  have hfc : isFullCircle (rad2deg (deg2rad 0), rad2deg (deg2rad 90)) = false := by
    simp only [isFullCircle, rad2deg, deg2rad]
    norm_num
  refine ⟨?_, ?_, ?_, ?_, ?_, ?_⟩
  · simp only [layoutBar]
    split <;> simp [hp0]
  · simp only [layoutBar]
    split <;> simp [hp1]
  · simp only [layoutBar]
    split <;> simp [barS0, sampleBar]
  · simp only [layoutBar]
    split <;> simp [hs1]
  · simp only [layoutBar, hdeg, Bool.false_eq_true, if_false, h1, h2, h3, h4,
      makePathFn, jsVal, Option.getD_some, hcx, hcy, deg2rad]
  · simp only [pathAnnulus, _path, hfc, jsVal, Option.getD]
    norm_num [deg2rad]


/-- Witness for `wrap360_range_periodic` at `d = -10`, `k = 1`. -/
theorem wrap360_range_periodic_witness :
    0 ≤ wrap360 (-10) ∧ wrap360 (-10) < 360 ∧
      wrap360 (-10 + 360 * (1 : ℤ)) = wrap360 (-10) ∧
      wrap360 (-10) =
        (if jsMod (-10) 360 < 0 then jsMod (-10) 360 + 360 else jsMod (-10) 360) :=
  wrap360_range_periodic (-10) 1

/-- Witness for `wrap180_range_formula` at `d = -540`. -/
theorem wrap180_range_formula_witness :
    -180 ≤ wrap180 (-540) ∧ wrap180 (-540) ≤ 180 ∧ wrap180 180 = 180 ∧
      wrap180 (-540) =
        (if 180 < |(-540 : ℚ)| then -540 - (jsRound (-540 / 360) : ℚ) * 360
         else -540) :=
  wrap180_range_formula (-540)

/-- Witness for `containment_sorts_internally` at the spec's concrete
    point and ranges. -/
theorem containment_sorts_internally_witness :
    isPtInsideSector 5 (deg2rad 0) (10, 2) (-10, 10) =
        isPtInsideSector 5 (deg2rad 0) (2, 10) (-10, 10) ∧
      isAngleInsideSector (deg2rad 0) (-10, 10) =
        isAngleInsideSector (deg2rad 0) (10, -10) ∧
      isPtInsideSector 5 (deg2rad 0) (10, 2) (-10, 10) = true :=
  containment_sorts_internally 5 (deg2rad 0) 10 2 (-10) 10

/-- Witness for `path_builders_pair_order_insensitive` at concrete
    radii 1, 2 (and 3 for the single-radius builders) over `0°..90°`. -/
theorem path_builders_pair_order_insensitive_witness :
    pathAnnulus trivTrig 1 2 (deg2rad 0) (deg2rad 90) 0 0 =
        pathAnnulus trivTrig 2 1 (deg2rad 0) (deg2rad 90) 0 0 ∧
      pathAnnulus trivTrig 1 2 (deg2rad 0) (deg2rad 90) 0 0 =
        pathAnnulus trivTrig 1 2 (deg2rad 90) (deg2rad 0) 0 0 ∧
      pathArc trivTrig 3 (deg2rad 0) (deg2rad 90) 0 0 =
        pathArc trivTrig 3 (deg2rad 90) (deg2rad 0) 0 0 ∧
      pathSector trivTrig 3 (deg2rad 0) (deg2rad 90) 0 0 =
        pathSector trivTrig 3 (deg2rad 90) (deg2rad 0) 0 0 :=
  path_builders_pair_order_insensitive trivTrig 3 1 2 (deg2rad 0) (deg2rad 90) 0 0

/-- Witness for `layout_field_writes` at the sample subplot and bar. -/
theorem layout_field_writes_witness :
    (layoutBar trivTrig sampleSubplot (makePathFn trivTrig sampleSubplot)
        (Sum.inl (some 0)) 0 sampleBar).1.p0 =
        barP0 (Sum.inl (some 0)) 0 sampleBar ∧
      (layoutBar trivTrig sampleSubplot (makePathFn trivTrig sampleSubplot)
        (Sum.inl (some 0)) 0 sampleBar).1.p1 =
        barP1 (Sum.inl (some 0)) 0 sampleBar ∧
      (layoutBar trivTrig sampleSubplot (makePathFn trivTrig sampleSubplot)
        (Sum.inl (some 0)) 0 sampleBar).1.s0 = barS0 sampleBar ∧
      (layoutBar trivTrig sampleSubplot (makePathFn trivTrig sampleSubplot)
        (Sum.inl (some 0)) 0 sampleBar).1.s1 = barS1 sampleBar ∧
      (layoutBar trivTrig sampleSubplot (makePathFn trivTrig sampleSubplot)
        (Sum.inl (some 0)) 0 sampleBar).1.rp0 = barRp0 sampleSubplot sampleBar ∧
      (layoutBar trivTrig sampleSubplot (makePathFn trivTrig sampleSubplot)
        (Sum.inl (some 0)) 0 sampleBar).1.rp1 = barRp1 sampleSubplot sampleBar ∧
      (layoutBar trivTrig sampleSubplot (makePathFn trivTrig sampleSubplot)
        (Sum.inl (some 0)) 0 sampleBar).1.thetag0 =
        barThetag0 sampleSubplot (Sum.inl (some 0)) 0 sampleBar ∧
      (layoutBar trivTrig sampleSubplot (makePathFn trivTrig sampleSubplot)
        (Sum.inl (some 0)) 0 sampleBar).1.thetag1 =
        barThetag1 sampleSubplot (Sum.inl (some 0)) 0 sampleBar ∧
      (layoutBar trivTrig sampleSubplot (makePathFn trivTrig sampleSubplot)
        (Sum.inl (some 0)) 0 sampleBar).1.ct =
        (if barDegenerate sampleSubplot (Sum.inl (some 0)) 0 sampleBar then
          sampleBar.ct
         else some (barCt trivTrig sampleSubplot (Sum.inl (some 0)) 0 sampleBar)) :=
  layout_field_writes trivTrig sampleSubplot (makePathFn trivTrig sampleSubplot)
    (Sum.inl (some 0)) 0 sampleBar

/-- Witness for `barpolar_sample_quarter_ring` at the concrete oracle
    `trivTrig`. -/
theorem barpolar_sample_quarter_ring_witness :
    (layoutBar trivTrig sampleSubplot (makePathFn trivTrig sampleSubplot)
        (Sum.inl (some 0)) 0 sampleBar).1.p0 = some 0 ∧
      (layoutBar trivTrig sampleSubplot (makePathFn trivTrig sampleSubplot)
        (Sum.inl (some 0)) 0 sampleBar).1.p1 = some 90 ∧
      (layoutBar trivTrig sampleSubplot (makePathFn trivTrig sampleSubplot)
        (Sum.inl (some 0)) 0 sampleBar).1.s0 = some 1 ∧
      (layoutBar trivTrig sampleSubplot (makePathFn trivTrig sampleSubplot)
        (Sum.inl (some 0)) 0 sampleBar).1.s1 = some 3 ∧
      (layoutBar trivTrig sampleSubplot (makePathFn trivTrig sampleSubplot)
        (Sum.inl (some 0)) 0 sampleBar).2 =
        pathAnnulus trivTrig 1 3 (deg2rad 0) (deg2rad 90) 0 0 ∧
      pathAnnulus trivTrig 1 3 (deg2rad 0) (deg2rad 90) 0 0 =
        "M" ++ pt trivTrig 0 0 1 ⟨0⟩ ++ "L" ++ pt trivTrig 0 0 3 ⟨0⟩ ++
        arc trivTrig 0 0 0 3 ⟨90⟩ 0 ++ "L" ++ pt trivTrig 0 0 1 ⟨90⟩ ++
        arc trivTrig 0 0 0 1 ⟨0⟩ 1 ++ "Z" :=
  barpolar_sample_quarter_ring trivTrig

end Plotly
